import Mathlib

/-!
A shallow embedding of `src/App.js` from the `catalogo-vasos` repository.

The app keeps four pieces of `useState` state: the catalog `vasos` and the
three text buffers `nomeVaso`, `localVaso`, `flores`.  It exposes two
handlers: `adicionarVaso` (validate, build a record, prepend, clear the
buffers) and `removerVaso` (confirmation prompt, then filter by id).

JavaScript string built-ins (`trim`, `split`) are modelled over the
character list of a Lean `String`; `Date.now()` is modelled as an explicit
`Nat` argument, rendered with `Nat.repr` as `.toString()` does.
-/

namespace CatalogoVasos

/-- Whitespace-stripping on character lists: drop from the front, then from
the back. -/
def trimChars (l : List Char) : List Char :=
  List.rdropWhile Char.isWhitespace (l.dropWhile Char.isWhitespace)

/-- Model of the JavaScript `String.prototype.trim()` built-in: strip
whitespace from both ends of the character list.  The claims only involve
ordinary spaces, which `Char.isWhitespace` covers. -/
def jsTrim (s : String) : String :=
  String.mk (trimChars s.data)

/-- Model of the JavaScript `String.prototype.split(sep)` built-in for a
single-character separator, on character lists.  As in JS, the empty string
splits to one empty token (`"".split(',')` is `[""]`) and consecutive
separators produce empty tokens. -/
def splitOnCharList (sep : Char) : List Char → List (List Char)
  | [] => [[]]
  | c :: cs =>
    match splitOnCharList sep cs with
    | [] => [[]]
    | t :: ts => if c = sep then [] :: t :: ts else (c :: t) :: ts

/-- `s.split(sep)` on Lean strings, via `splitOnCharList`. -/
def jsSplit (sep : Char) (s : String) : List String :=
  (splitOnCharList sep s.data).map String.mk

/-- One catalogued pot, exactly the object literal built in `adicionarVaso`
(`src/App.js` lines 52–59). -/
structure PotRecord where
  id : String
  nome : String
  «local» : String
  flores : List String
deriving DecidableEq

/-- The four `useState` pieces of the `App` component
(`src/App.js` lines 28–34). -/
structure AppState where
  vasos : List PotRecord
  nomeVaso : String
  localVaso : String
  flores : String
deriving DecidableEq

/-- All four states start empty (`useState([])` / `useState('')`). -/
def initialState : AppState :=
  { vasos := [], nomeVaso := "", localVaso := "", flores := "" }

/-- The record built at `src/App.js` lines 52–59.  `now` stands for the
value of `Date.now()` at the moment of the call; `id` is its decimal
rendering, as `.toString()` produces.  The `flores` field mirrors
`flores.trim() ? flores.split(',').map(flor => flor.trim()) : []`. -/
def novoVaso (now : Nat) (s : AppState) : PotRecord :=
  { id := Nat.repr now
    nome := s.nomeVaso
    «local» := s.localVaso
    flores :=
      if jsTrim s.flores = "" then []
      else (jsSplit ',' s.flores).map jsTrim }

/-- `adicionarVaso` (`src/App.js` lines 42–72), with `Date.now()` passed in
as `now`.  The returned `Bool` records whether the validation `Alert` of
line 47 fired (in which case the handler returns early and the state is the
input state); on the success path the new record is prepended and the three
buffers are cleared.  `Keyboard.dismiss()` has no state effect. -/
def adicionarVaso (now : Nat) (s : AppState) : AppState × Bool :=
  if jsTrim s.nomeVaso = "" ∨ jsTrim s.localVaso = "" then (s, true)
  else
    ({ vasos := novoVaso now s :: s.vasos
       nomeVaso := "", localVaso := "", flores := "" }, false)

/-- `onChangeText={setNomeVaso}` (`src/App.js` line 123). -/
def setNomeVaso (v : String) (s : AppState) : AppState := { s with nomeVaso := v }

/-- `onChangeText={setLocalVaso}` (`src/App.js` line 132). -/
def setLocalVaso (v : String) (s : AppState) : AppState := { s with localVaso := v }

/-- `onChangeText={setFlores}` (`src/App.js` line 141). -/
def setFlores (v : String) (s : AppState) : AppState := { s with flores := v }

/-- The two buttons of the confirmation prompt in `removerVaso`
(`src/App.js` lines 82–99). -/
inductive RemoveChoice
  | cancelar
  | simRemover
deriving DecidableEq

/-- `removerVaso` (`src/App.js` lines 78–101): the `cancelar` button leaves
the state unchanged; `simRemover` runs the `onPress` update of lines 91–95,
keeping exactly the records whose id differs (`vaso.id !== id`). -/
def removerVaso (id : String) (choice : RemoveChoice) (s : AppState) : AppState :=
  match choice with
  | .cancelar => s
  | .simRemover => { s with vasos := s.vasos.filter (fun vaso => vaso.id != id) }

/-- The discrete user events the UI can deliver to the component; `add`
carries the `Date.now()` value observed during that call. -/
inductive Event
  | setNome (v : String)
  | setLocal (v : String)
  | setFlores (v : String)
  | add (now : Nat)
  | remove (id : String) (choice : RemoveChoice)
deriving DecidableEq

/-- One event-handling step of the component. -/
def step (s : AppState) : Event → AppState
  | .setNome v => setNomeVaso v s
  | .setLocal v => setLocalVaso v s
  | .setFlores v => setFlores v s
  | .add now => (adicionarVaso now s).1
  | .remove id choice => removerVaso id choice s

/-- Run a sequence of events from a state; `run es initialState` ranges over
exactly the reachable states of the process. -/
def run (es : List Event) (s : AppState) : AppState := es.foldl step s

/-- The decimal digit list of a natural number, by structural recursion on
the value; shown below to agree with `Nat.toDigits 10`. -/
def natDigs (n : Nat) : List Char :=
  if _h : n < 10 then [Nat.digitChar n]
  else natDigs (n / 10) ++ [Nat.digitChar (n % 10)]
decreasing_by exact Nat.div_lt_self (by omega) (by omega)

/-! ### Facts about the modelled string built-ins -/

/-- After stripping leading whitespace and then trailing whitespace, the
front is still whitespace-free. -/
theorem dropWhile_rdropWhile_dropWhile (p : Char → Bool) (l : List Char) :
    List.dropWhile p (List.rdropWhile p (List.dropWhile p l))
      = List.rdropWhile p (List.dropWhile p l) := by
  rw [List.dropWhile_eq_self_iff]
  intro hl
  have hpre := List.rdropWhile_prefix p (l.dropWhile p)
  have hlen : 0 < (l.dropWhile p).length := lt_of_lt_of_le hl hpre.length_le
  have hget := hpre.getElem hl
  have hne : l.dropWhile p ≠ [] := List.length_pos.mp hlen
  have hhead := List.head_dropWhile_not p l hne
  rw [List.head_eq_getElem] at hhead
  simp only [List.get_eq_getElem, hget, hhead]
  simp

/-- `trimChars` is idempotent. -/
theorem trimChars_idempotent (l : List Char) : trimChars (trimChars l) = trimChars l := by
  unfold trimChars
  rw [dropWhile_rdropWhile_dropWhile, List.rdropWhile_idempotent]

/-- The JS `trim` model is idempotent: a trimmed string trims to itself. -/
theorem jsTrim_idempotent (s : String) : jsTrim (jsTrim s) = jsTrim s := by
  show String.mk (trimChars (trimChars s.data)) = String.mk (trimChars s.data)
  rw [trimChars_idempotent]

/-! ### Injectivity of `Nat.repr`, the model of `Date.now().toString()` -/

/-- Unfolding of `natDigs` on one-digit numbers. -/
theorem natDigs_lt (n : Nat) (h : n < 10) : natDigs n = [Nat.digitChar n] := by
  rw [natDigs, dif_pos h]

/-- Unfolding of `natDigs` on multi-digit numbers. -/
theorem natDigs_ge (n : Nat) (h : ¬n < 10) :
    natDigs n = natDigs (n / 10) ++ [Nat.digitChar (n % 10)] := by
  rw [natDigs, dif_neg h]

/-- Decimal digit characters decode back to their value. -/
theorem digitChar_toNat (n : Nat) (h : n < 10) : (Nat.digitChar n).toNat - 48 = n := by
  revert h
  revert n
  decide

/-- Folding the decimal decoder over `natDigs n` starting from `acc`
recovers `acc * 10 ^ digits + n`. -/
theorem natDigs_foldl (n : Nat) : ∀ acc : Nat,
    (natDigs n).foldl (fun a c => 10 * a + (c.toNat - 48)) acc
      = acc * 10 ^ (natDigs n).length + n := by
  induction n using Nat.strong_induction_on with
  | _ n ih =>
    intro acc
    by_cases h : n < 10
    · rw [natDigs_lt n h]
      simp [List.foldl, digitChar_toNat n h]
      omega
    · rw [natDigs_ge n h]
      rw [List.foldl_append]
      rw [ih (n / 10) (Nat.div_lt_self (by omega) (by omega))]
      simp only [List.foldl, List.length_append, List.length_singleton]
      rw [digitChar_toNat (n % 10) (Nat.mod_lt n (by omega))]
      have hdm : 10 * (n / 10) + n % 10 = n := Nat.div_add_mod n 10
      rw [Nat.mul_add, Nat.add_assoc, hdm, pow_succ]
      ring

/-- `natDigs` is injective: the digit list determines the number. -/
theorem natDigs_injective (m n : Nat) (h : natDigs m = natDigs n) : m = n := by
  have hm := natDigs_foldl m 0
  have hn := natDigs_foldl n 0
  rw [h] at hm
  simp only [Nat.zero_mul, Nat.zero_add] at hm hn
  omega

/-- `Nat.toDigitsCore` in base 10 computes `natDigs`, given enough fuel. -/
theorem toDigitsCore_eq_natDigs (fuel : Nat) : ∀ (n : Nat) (ds : List Char), n < fuel →
    Nat.toDigitsCore 10 fuel n ds = natDigs n ++ ds := by
  induction fuel with
  | zero => omega
  | succ f ih =>
    intro n ds h
    simp only [Nat.toDigitsCore]
    by_cases h10 : n / 10 = 0
    · have hn10 : n < 10 := by omega
      rw [if_pos h10, Nat.mod_eq_of_lt hn10, natDigs_lt n hn10]
      simp
    · rw [if_neg h10]
      have hlt : n / 10 < f := by omega
      rw [ih (n / 10) (Nat.digitChar (n % 10) :: ds) hlt]
      rw [natDigs_ge n (by omega : ¬n < 10)]
      simp

/-- `Nat.repr` (the model of `.toString()` on `Date.now()`) is injective:
distinct timestamps render to distinct id strings. -/
theorem natRepr_injective (m n : Nat) (h : Nat.repr m = Nat.repr n) : m = n := by
  unfold Nat.repr Nat.toDigits List.asString at h
  injection h with h
  rw [toDigitsCore_eq_natDigs (m + 1) m [] (by omega),
    toDigitsCore_eq_natDigs (n + 1) n [] (by omega)] at h
  simp only [List.append_nil] at h
  exact natDigs_injective m n h

/-! ### List facts used for removal -/

/-- A list with exactly one `p`-match splits around that match, and keeping
the non-matches deletes exactly it. -/
theorem filter_not_of_countP_one {α : Type} (p : α → Bool) (l : List α)
    (h : l.countP p = 1) :
    ∃ l1 x l2, l = l1 ++ x :: l2 ∧ p x = true ∧
      (∀ y ∈ l1, p y = false) ∧ (∀ y ∈ l2, p y = false) ∧
      l.filter (fun a => !p a) = l1 ++ l2 := by
  induction l with
  | nil => simp at h
  | cons a t ih =>
    rw [List.countP_cons] at h
    by_cases hp : p a = true
    · have ht : t.countP p = 0 := by
        rw [if_pos hp] at h
        omega
      have hall : ∀ y ∈ t, p y = false := by
        intro y hy
        have := List.countP_eq_zero.mp ht y hy
        simpa using this
      refine ⟨[], a, t, by simp, hp, by simp, hall, ?_⟩
      rw [List.filter_cons_of_neg (by simp [hp])]
      rw [List.filter_eq_self.mpr]
      · simp
      · intro y hy
        simp [hall y hy]
    · have hpa : p a = false := by simpa using hp
      rw [if_neg hp] at h
      simp only [Nat.add_zero] at h
      obtain ⟨l1, x, l2, rfl, hx, h1, h2, hf⟩ := ih h
      refine ⟨a :: l1, x, l2, by simp, hx, ?_, h2, ?_⟩
      · intro y hy
        rcases List.mem_cons.mp hy with rfl | hy
        · exact hpa
        · exact h1 y hy
      · rw [List.filter_cons_of_pos (by simp [hpa])]
        rw [hf]
        simp

/-! ### Reachable states: ids come from `add` events -/

/-- Every record in the catalog after running a trace either was already
there or carries the decimal rendering of the `Date.now()` value of some
`add` event of the trace as its id. -/
theorem run_id_from_add (es : List Event) : ∀ (s : AppState) (v : PotRecord),
    v ∈ (run es s).vasos →
      v ∈ s.vasos ∨ ∃ t, Event.add t ∈ es ∧ v.id = Nat.repr t := by
  induction es with
  | nil =>
    intro s v hv
    exact Or.inl hv
  | cons e es ih =>
    intro s v hv
    have hv' : v ∈ (run es (step s e)).vasos := hv
    rcases ih (step s e) v hv' with hmem | ⟨t, ht, hid⟩
    · cases e with
      | setNome w => exact Or.inl hmem
      | setLocal w => exact Or.inl hmem
      | setFlores w => exact Or.inl hmem
      | add now =>
        by_cases hvld : jsTrim s.nomeVaso = "" ∨ jsTrim s.localVaso = ""
        · rw [step, adicionarVaso, if_pos hvld] at hmem
          exact Or.inl hmem
        · rw [step, adicionarVaso, if_neg hvld] at hmem
          rcases List.mem_cons.mp hmem with rfl | hmem
          · exact Or.inr ⟨now, List.mem_cons_self _ _, rfl⟩
          · exact Or.inl hmem
      | remove id choice =>
        cases choice with
        | cancelar => exact Or.inl hmem
        | simRemover =>
          rw [step, removerVaso] at hmem
          exact Or.inl (List.mem_of_mem_filter hmem)
    · exact Or.inr ⟨t, List.mem_cons_of_mem _ ht, hid⟩

/-! ### Unfolding lemmas for `adicionarVaso` -/

/-- On valid buffers `adicionarVaso` prepends the new record and clears the
three buffers. -/
theorem adicionarVaso_valid (now : Nat) (s : AppState)
    (hn : jsTrim s.nomeVaso ≠ "") (hl : jsTrim s.localVaso ≠ "") :
    adicionarVaso now s =
      ({ vasos := novoVaso now s :: s.vasos
         nomeVaso := "", localVaso := "", flores := "" }, false) := by
  rw [adicionarVaso, if_neg (by tauto)]

/-- On invalid buffers `adicionarVaso` returns early with the state
unchanged. -/
theorem adicionarVaso_invalid (now : Nat) (s : AppState)
    (h : jsTrim s.nomeVaso = "" ∨ jsTrim s.localVaso = "") :
    adicionarVaso now s = (s, true) := by
  rw [adicionarVaso, if_pos h]

/-! ### The claims -/

/-- C1: the claim that `add` discards empty flower tokens fails on the
code: `flores.split(',').map(flor => flor.trim())` keeps empty tokens, so
`add("Vaso 1", "Sala", "Rosa, Lírio , , Tulipa")` stores
`["Rosa", "Lírio", "", "Tulipa"]`, not `["Rosa", "Lírio", "Tulipa"]`. -/
theorem C1_counterexample :
    ((adicionarVaso 0 ⟨[], "Vaso 1", "Sala", "Rosa, Lírio , , Tulipa"⟩).1.vasos.map
        PotRecord.flores = [["Rosa", "Lírio", "", "Tulipa"]]) ∧
    ((adicionarVaso 0 ⟨[], "Vaso 1", "Sala", "Rosa, Lírio , , Tulipa"⟩).1.vasos.map
        PotRecord.flores ≠ [["Rosa", "Lírio", "Tulipa"]]) := by
  decide

/-- C1 (amended): `add` parses `flowersRaw` by splitting on commas and
trimming each token, keeping empty tokens; every stored token is fully
trimmed (whitespace-free at both ends), and if `flowersRaw` trims to empty
the stored flower list is empty. -/
theorem C1_flores_parsing (s : AppState) (now : Nat)
    (hn : jsTrim s.nomeVaso ≠ "") (hl : jsTrim s.localVaso ≠ "") :
    ∃ novo, (adicionarVaso now s).1.vasos = novo :: s.vasos ∧
      novo.flores = (if jsTrim s.flores = "" then []
        else (jsSplit ',' s.flores).map jsTrim) ∧
      (∀ f ∈ novo.flores, jsTrim f = f) ∧
      (jsTrim s.flores = "" → novo.flores = []) := by
  rw [adicionarVaso_valid now s hn hl]
  refine ⟨novoVaso now s, rfl, rfl, ?_, ?_⟩
  · intro f hf
    rw [novoVaso] at hf
    simp only at hf
    by_cases hfl : jsTrim s.flores = ""
    · rw [if_pos hfl] at hf
      simp at hf
    · rw [if_neg hfl] at hf
      obtain ⟨g, _, rfl⟩ := List.mem_map.mp hf
      exact jsTrim_idempotent g
  · intro hfl
    rw [novoVaso]
    simp only [if_pos hfl]

/-- Witness for C1 (amended) at the spec's own example input. -/
theorem C1_flores_parsing_witness :
    jsTrim "Vaso 1" ≠ "" ∧ jsTrim "Sala" ≠ "" ∧
    (∃ novo, (adicionarVaso 0 ⟨[], "Vaso 1", "Sala", "Rosa, Lírio , , Tulipa"⟩).1.vasos
        = novo :: [] ∧
      novo.flores = (if jsTrim "Rosa, Lírio , , Tulipa" = "" then []
        else (jsSplit ',' "Rosa, Lírio , , Tulipa").map jsTrim) ∧
      (∀ f ∈ novo.flores, jsTrim f = f) ∧
      (jsTrim "Rosa, Lírio , , Tulipa" = "" → novo.flores = [])) :=
  ⟨by decide, by decide,
    C1_flores_parsing ⟨[], "Vaso 1", "Sala", "Rosa, Lírio , , Tulipa"⟩ 0
      (by decide) (by decide)⟩

/-- C3: the validation `Alert` fires exactly when the trimmed name or the
trimmed location is empty; the flowers buffer is never a cause; and when it
fires the whole state (catalog and buffers) is left unchanged. -/
theorem C3_validation (s : AppState) (now : Nat) :
    ((adicionarVaso now s).2 = true ↔
      (jsTrim s.nomeVaso = "" ∨ jsTrim s.localVaso = "")) ∧
    ((adicionarVaso now s).2 = true → (adicionarVaso now s).1 = s) ∧
    (∀ f : String, (adicionarVaso now (setFlores f s)).2 = (adicionarVaso now s).2) := by
  by_cases h : jsTrim s.nomeVaso = "" ∨ jsTrim s.localVaso = ""
  · rw [adicionarVaso_invalid now s h]
    refine ⟨by simpa using h, by intro _; rfl, ?_⟩
    intro f
    rw [adicionarVaso_invalid now (setFlores f s) (by simpa [setFlores] using h)]
  · rw [adicionarVaso_valid now s (by tauto) (by tauto)]
    refine ⟨by simpa using h, by intro hx; exact absurd hx (by simp), ?_⟩
    intro f
    rw [adicionarVaso_valid now (setFlores f s) (by simpa [setFlores] using (by tauto : jsTrim s.nomeVaso ≠ "")) (by simpa [setFlores] using (by tauto : jsTrim s.localVaso ≠ ""))]

/-- Witness for C3 at a concrete invalid input. -/
theorem C3_validation_witness :
    ((adicionarVaso 0 ⟨[], "  ", "Sala", "Rosa"⟩).2 = true ↔
      (jsTrim "  " = "" ∨ jsTrim "Sala" = "")) ∧
    ((adicionarVaso 0 ⟨[], "  ", "Sala", "Rosa"⟩).2 = true →
      (adicionarVaso 0 ⟨[], "  ", "Sala", "Rosa"⟩).1 = ⟨[], "  ", "Sala", "Rosa"⟩) ∧
    (∀ f : String, (adicionarVaso 0 (setFlores f ⟨[], "  ", "Sala", "Rosa"⟩)).2
      = (adicionarVaso 0 ⟨[], "  ", "Sala", "Rosa"⟩).2) :=
  C3_validation ⟨[], "  ", "Sala", "Rosa"⟩ 0

/-- C9: a successful `add` stores `name` and `location` verbatim from the
buffers, without trimming, even though validation compares trimmed values. -/
theorem C9_verbatim (s : AppState) (now : Nat)
    (hn : jsTrim s.nomeVaso ≠ "") (hl : jsTrim s.localVaso ≠ "") :
    ∃ novo, (adicionarVaso now s).1.vasos = novo :: s.vasos ∧
      novo.nome = s.nomeVaso ∧ novo.«local» = s.localVaso := by
  rw [adicionarVaso_valid now s hn hl]
  exact ⟨novoVaso now s, rfl, rfl, rfl⟩

/-- Witness for C9: a name and location typed with surrounding whitespace
pass validation yet are stored untrimmed. -/
theorem C9_verbatim_witness :
    jsTrim " Vaso " ≠ "" ∧ jsTrim " Sala " ≠ "" ∧
    (∃ novo, (adicionarVaso 0 ⟨[], " Vaso ", " Sala ", ""⟩).1.vasos = novo :: [] ∧
      novo.nome = " Vaso " ∧ novo.«local» = " Sala ") ∧
    jsTrim " Vaso " ≠ " Vaso " :=
  ⟨by decide, by decide,
    C9_verbatim ⟨[], " Vaso ", " Sala ", ""⟩ 0 (by decide) (by decide), by decide⟩

/-- C2: unconditional id uniqueness fails on the code: `Date.now()` is not
collision-free, and two successful adds that observe the same millisecond
value produce the same id — here a reachable state already holds a record
with id `"5"` and a successful add at time `5` prepends a second one. -/
theorem C2_counterexample :
    ((adicionarVaso 5 (run [Event.setNome "A", Event.setLocal "B", Event.add 5,
        Event.setNome "A", Event.setLocal "B"] initialState)).2 = false) ∧
    ("5" ∈ (run [Event.setNome "A", Event.setLocal "B", Event.add 5,
        Event.setNome "A", Event.setLocal "B"] initialState).vasos.map PotRecord.id) ∧
    ((adicionarVaso 5 (run [Event.setNome "A", Event.setLocal "B", Event.add 5,
        Event.setNome "A", Event.setLocal "B"] initialState)).1.vasos.map PotRecord.id
      = ["5", "5"]) := by
  decide

/-- C2 (amended): the freshly generated id of a successful `add` is
distinct from every id already in the catalog provided the `Date.now()`
value of this add differs from that of every earlier `add` event of the
run; adds observing a repeated millisecond value can collide. -/
theorem C2_fresh_id (es : List Event) (now : Nat)
    (h : Event.add now ∉ es)
    (hsucc : (adicionarVaso now (run es initialState)).2 = false) :
    ∃ novo, (adicionarVaso now (run es initialState)).1.vasos
        = novo :: (run es initialState).vasos ∧
      novo.id ∉ (run es initialState).vasos.map PotRecord.id := by
  by_cases hvld : jsTrim (run es initialState).nomeVaso = ""
      ∨ jsTrim (run es initialState).localVaso = ""
  · rw [adicionarVaso_invalid now _ hvld] at hsucc
    simp at hsucc
  · rw [adicionarVaso_valid now _ (by tauto) (by tauto)]
    refine ⟨novoVaso now (run es initialState), rfl, ?_⟩
    intro hmem
    obtain ⟨v, hv, hvid⟩ := List.mem_map.mp hmem
    rcases run_id_from_add es initialState v hv with hinit | ⟨t, ht, hid⟩
    · simp [initialState] at hinit
    · have hrepr : Nat.repr t = Nat.repr now := by
        rw [← hid, hvid]
        simp [novoVaso]
      have := natRepr_injective t now hrepr
      subst this
      exact h ht

/-- Witness for C2 (amended) on a two-add run with distinct timestamps. -/
theorem C2_fresh_id_witness :
    (Event.add 2 ∉ [Event.setNome "A", Event.setLocal "B", Event.add 1,
      Event.setNome "C", Event.setLocal "D"]) ∧
    ((adicionarVaso 2 (run [Event.setNome "A", Event.setLocal "B", Event.add 1,
      Event.setNome "C", Event.setLocal "D"] initialState)).2 = false) ∧
    (∃ novo, (adicionarVaso 2 (run [Event.setNome "A", Event.setLocal "B", Event.add 1,
        Event.setNome "C", Event.setLocal "D"] initialState)).1.vasos
        = novo :: (run [Event.setNome "A", Event.setLocal "B", Event.add 1,
        Event.setNome "C", Event.setLocal "D"] initialState).vasos ∧
      novo.id ∉ (run [Event.setNome "A", Event.setLocal "B", Event.add 1,
        Event.setNome "C", Event.setLocal "D"] initialState).vasos.map PotRecord.id) :=
  ⟨by decide, by decide,
    C2_fresh_id [Event.setNome "A", Event.setLocal "B", Event.add 1,
      Event.setNome "C", Event.setLocal "D"] 2 (by decide) (by decide)⟩

/-- C4: a valid `add` increases the catalog length by exactly one and
prepends the new record, leaving the previous records unchanged in content
and order; after `add(A)` then (refilling the buffers) `add(B)`, the list
is `[B, A]` followed by whatever was there before. -/
theorem C4_add_prepends (s : AppState) (now1 now2 : Nat)
    (nome2 local2 flores2 : String)
    (h1n : jsTrim s.nomeVaso ≠ "") (h1l : jsTrim s.localVaso ≠ "")
    (h2n : jsTrim nome2 ≠ "") (h2l : jsTrim local2 ≠ "") :
    ((adicionarVaso now1 s).1.vasos.length = s.vasos.length + 1) ∧
    ((adicionarVaso now1 s).1.vasos.tail = s.vasos) ∧
    (∃ recA recB,
      (adicionarVaso now1 s).1.vasos = recA :: s.vasos ∧
      (adicionarVaso now2 (setFlores flores2 (setLocalVaso local2 (setNomeVaso nome2
          (adicionarVaso now1 s).1)))).1.vasos = recB :: recA :: s.vasos) := by
  rw [adicionarVaso_valid now1 s h1n h1l]
  refine ⟨by simp, rfl, novoVaso now1 s,
    novoVaso now2 ⟨novoVaso now1 s :: s.vasos, nome2, local2, flores2⟩, rfl, ?_⟩
  show (adicionarVaso now2
      (⟨novoVaso now1 s :: s.vasos, nome2, local2, flores2⟩ : AppState)).1.vasos
    = novoVaso now2 ⟨novoVaso now1 s :: s.vasos, nome2, local2, flores2⟩
        :: novoVaso now1 s :: s.vasos
  rw [adicionarVaso_valid now2 _ h2n h2l]

/-- Witness for C4 at concrete inputs. -/
theorem C4_add_prepends_witness :
    jsTrim "Vaso 1" ≠ "" ∧ jsTrim "Sala" ≠ "" ∧
    jsTrim "Vaso 2" ≠ "" ∧ jsTrim "Cozinha" ≠ "" ∧
    (((adicionarVaso 1 ⟨[], "Vaso 1", "Sala", ""⟩).1.vasos.length = 0 + 1) ∧
    ((adicionarVaso 1 ⟨[], "Vaso 1", "Sala", ""⟩).1.vasos.tail = []) ∧
    (∃ recA recB,
      (adicionarVaso 1 ⟨[], "Vaso 1", "Sala", ""⟩).1.vasos = recA :: [] ∧
      (adicionarVaso 2 (setFlores "" (setLocalVaso "Cozinha" (setNomeVaso "Vaso 2"
          (adicionarVaso 1 ⟨[], "Vaso 1", "Sala", ""⟩).1)))).1.vasos
        = recB :: recA :: [])) :=
  ⟨by decide, by decide, by decide, by decide,
    C4_add_prepends ⟨[], "Vaso 1", "Sala", ""⟩ 1 2 "Vaso 2" "Cozinha" ""
      (by decide) (by decide) (by decide) (by decide)⟩

/-- C5: as stated over every catalog containing a matching record, the
claim fails: on a catalog holding two records with the same id, one
confirmed remove deletes both, so the length drops by two, not one. -/
theorem C5_counterexample :
    (∃ v ∈ (⟨[⟨"1", "A", "B", []⟩, ⟨"1", "C", "D", []⟩], "", "", ""⟩ : AppState).vasos,
      v.id = "1") ∧
    (removerVaso "1" RemoveChoice.simRemover
        (⟨[⟨"1", "A", "B", []⟩, ⟨"1", "C", "D", []⟩], "", "", ""⟩ : AppState)).vasos.length
      ≠ (⟨[⟨"1", "A", "B", []⟩, ⟨"1", "C", "D", []⟩], "", "", ""⟩ : AppState).vasos.length
        - 1 := by
  decide

/-- C5 (amended): for every catalog containing exactly one record with the
given id, a confirmed `remove(id)` decreases the length by exactly one and
removes exactly that record, leaving every other record and their relative
order unchanged. -/
theorem C5_remove_unique (s : AppState) (id : String)
    (h : s.vasos.countP (fun v => v.id == id) = 1) :
    ∃ l1 x l2, s.vasos = l1 ++ x :: l2 ∧ x.id = id ∧
      (∀ y ∈ l1, y.id ≠ id) ∧ (∀ y ∈ l2, y.id ≠ id) ∧
      (removerVaso id RemoveChoice.simRemover s).vasos = l1 ++ l2 ∧
      (removerVaso id RemoveChoice.simRemover s).vasos.length + 1 = s.vasos.length := by
  obtain ⟨l1, x, l2, hsplit, hx, h1, h2, hf⟩ :=
    filter_not_of_countP_one (fun v => v.id == id) s.vasos h
  have hfilter : (removerVaso id RemoveChoice.simRemover s).vasos = l1 ++ l2 := by
    show s.vasos.filter (fun vaso => vaso.id != id) = l1 ++ l2
    simpa [bne] using hf
  refine ⟨l1, x, l2, hsplit, by simpa using hx, ?_, ?_, hfilter, ?_⟩
  · intro y hy
    simpa using h1 y hy
  · intro y hy
    simpa using h2 y hy
  · rw [hfilter, hsplit]
    simp
    omega

/-- Witness for C5 (amended) on a two-record catalog with distinct ids. -/
theorem C5_remove_unique_witness :
    ((⟨[⟨"1", "A", "B", []⟩, ⟨"2", "C", "D", []⟩], "", "", ""⟩ : AppState).vasos.countP
      (fun v => v.id == "1") = 1) ∧
    (∃ l1 x l2,
      (⟨[⟨"1", "A", "B", []⟩, ⟨"2", "C", "D", []⟩], "", "", ""⟩ : AppState).vasos
        = l1 ++ x :: l2 ∧ x.id = "1" ∧
      (∀ y ∈ l1, y.id ≠ "1") ∧ (∀ y ∈ l2, y.id ≠ "1") ∧
      (removerVaso "1" RemoveChoice.simRemover
        (⟨[⟨"1", "A", "B", []⟩, ⟨"2", "C", "D", []⟩], "", "", ""⟩ : AppState)).vasos
        = l1 ++ l2 ∧
      (removerVaso "1" RemoveChoice.simRemover
        (⟨[⟨"1", "A", "B", []⟩, ⟨"2", "C", "D", []⟩], "", "", ""⟩ : AppState)).vasos.length + 1
        = (⟨[⟨"1", "A", "B", []⟩, ⟨"2", "C", "D", []⟩], "", "", ""⟩ :
            AppState).vasos.length) :=
  ⟨by decide,
    C5_remove_unique (⟨[⟨"1", "A", "B", []⟩, ⟨"2", "C", "D", []⟩], "", "", ""⟩ : AppState)
      "1" (by decide)⟩

/-- C6: a confirmed `remove(id)` on a catalog with no matching record is a
silent no-op: the model has no failure outcome and the whole state is
returned exactly unchanged. -/
theorem C6_remove_missing (s : AppState) (id : String)
    (h : ∀ v ∈ s.vasos, v.id ≠ id) :
    removerVaso id RemoveChoice.simRemover s = s := by
  have hfilter : s.vasos.filter (fun vaso => vaso.id != id) = s.vasos := by
    rw [List.filter_eq_self]
    intro a ha
    simpa using h a ha
  show ({ s with vasos := s.vasos.filter (fun vaso => vaso.id != id) } : AppState) = s
  rw [hfilter]

/-- Witness for C6 on a one-record catalog and an absent id. -/
theorem C6_remove_missing_witness :
    (∀ v ∈ (⟨[⟨"1", "A", "B", []⟩], "", "", ""⟩ : AppState).vasos, v.id ≠ "2") ∧
    removerVaso "2" RemoveChoice.simRemover
        (⟨[⟨"1", "A", "B", []⟩], "", "", ""⟩ : AppState)
      = (⟨[⟨"1", "A", "B", []⟩], "", "", ""⟩ : AppState) :=
  ⟨by decide, C6_remove_missing (⟨[⟨"1", "A", "B", []⟩], "", "", ""⟩ : AppState) "2"
    (by decide)⟩

/-- C7: confirmed removal is idempotent: removing the same id twice in a
row ends in the same state as removing it once. -/
theorem C7_remove_idempotent (s : AppState) (id : String) :
    removerVaso id RemoveChoice.simRemover (removerVaso id RemoveChoice.simRemover s)
      = removerVaso id RemoveChoice.simRemover s := by
  show ({ s with vasos := (s.vasos.filter (fun vaso => vaso.id != id)).filter (fun vaso => vaso.id != id) } : AppState) = { s with vasos := s.vasos.filter (fun vaso => vaso.id != id) }
  rw [List.filter_filter]
  simp

/-- C8: a successful submit clears all three text buffers; a submit that
fails validation leaves all three buffers (and the whole state) exactly as
they were. -/
theorem C8_buffers (s : AppState) (now : Nat) :
    ((adicionarVaso now s).2 = false →
      (adicionarVaso now s).1.nomeVaso = "" ∧
      (adicionarVaso now s).1.localVaso = "" ∧
      (adicionarVaso now s).1.flores = "") ∧
    ((adicionarVaso now s).2 = true →
      (adicionarVaso now s).1.nomeVaso = s.nomeVaso ∧
      (adicionarVaso now s).1.localVaso = s.localVaso ∧
      (adicionarVaso now s).1.flores = s.flores) := by
  by_cases h : jsTrim s.nomeVaso = "" ∨ jsTrim s.localVaso = ""
  · rw [adicionarVaso_invalid now s h]
    simp
  · rw [adicionarVaso_valid now s (by tauto) (by tauto)]
    simp

/-- Witness for C8: one successful submit and one failing submit at
concrete buffers. -/
theorem C8_buffers_witness :
    (((adicionarVaso 0 ⟨[], "Vaso", "Sala", "Rosa"⟩).2 = false →
      (adicionarVaso 0 ⟨[], "Vaso", "Sala", "Rosa"⟩).1.nomeVaso = "" ∧
      (adicionarVaso 0 ⟨[], "Vaso", "Sala", "Rosa"⟩).1.localVaso = "" ∧
      (adicionarVaso 0 ⟨[], "Vaso", "Sala", "Rosa"⟩).1.flores = "") ∧
    ((adicionarVaso 0 ⟨[], "Vaso", "Sala", "Rosa"⟩).2 = true →
      (adicionarVaso 0 ⟨[], "Vaso", "Sala", "Rosa"⟩).1.nomeVaso = "Vaso" ∧
      (adicionarVaso 0 ⟨[], "Vaso", "Sala", "Rosa"⟩).1.localVaso = "Sala" ∧
      (adicionarVaso 0 ⟨[], "Vaso", "Sala", "Rosa"⟩).1.flores = "Rosa")) ∧
    (((adicionarVaso 0 ⟨[], "", "Sala", "Rosa"⟩).2 = false →
      (adicionarVaso 0 ⟨[], "", "Sala", "Rosa"⟩).1.nomeVaso = "" ∧
      (adicionarVaso 0 ⟨[], "", "Sala", "Rosa"⟩).1.localVaso = "" ∧
      (adicionarVaso 0 ⟨[], "", "Sala", "Rosa"⟩).1.flores = "") ∧
    ((adicionarVaso 0 ⟨[], "", "Sala", "Rosa"⟩).2 = true →
      (adicionarVaso 0 ⟨[], "", "Sala", "Rosa"⟩).1.nomeVaso = "" ∧
      (adicionarVaso 0 ⟨[], "", "Sala", "Rosa"⟩).1.localVaso = "Sala" ∧
      (adicionarVaso 0 ⟨[], "", "Sala", "Rosa"⟩).1.flores = "Rosa")) :=
  ⟨C8_buffers ⟨[], "Vaso", "Sala", "Rosa"⟩ 0, C8_buffers ⟨[], "", "Sala", "Rosa"⟩ 0⟩

/-- C10: one confirmed `remove(id)` deletes every record whose id matches:
none survives, every non-matching record survives, and the length drops by
the number of matches — so duplicate-id records all go at once. -/
theorem C10_remove_all (s : AppState) (id : String) :
    (∀ v ∈ (removerVaso id RemoveChoice.simRemover s).vasos, v.id ≠ id) ∧
    (∀ v ∈ s.vasos, v.id ≠ id → v ∈ (removerVaso id RemoveChoice.simRemover s).vasos) ∧
    ((removerVaso id RemoveChoice.simRemover s).vasos.length
      = s.vasos.length - s.vasos.countP (fun v => v.id == id)) := by
  refine ⟨?_, ?_, ?_⟩
  · intro v hv
    have := (List.mem_filter.mp hv).2
    simpa using this
  · intro v hv hvid
    exact List.mem_filter.mpr ⟨hv, by simpa using hvid⟩
  · show (s.vasos.filter (fun vaso => vaso.id != id)).length
      = s.vasos.length - s.vasos.countP (fun v => v.id == id)
    induction s.vasos with
    | nil => simp
    | cons a t ih =>
      rw [List.countP_cons]
      by_cases ha : a.id == id
      · rw [List.filter_cons_of_neg (by simpa using ha), if_pos ha]
        rw [ih]
        simp only [List.length_cons]
        have hle : t.countP (fun v => v.id == id) ≤ t.length := List.countP_le_length _
        omega
      · rw [List.filter_cons_of_pos (by simpa using ha), if_neg ha]
        simp only [List.length_cons, ih]
        have hle : t.countP (fun v => v.id == id) ≤ t.length := List.countP_le_length _
        omega

/-- Witness for C10 on a catalog holding two records with the same id. -/
theorem C10_remove_all_witness :
    (∀ v ∈ (removerVaso "1" RemoveChoice.simRemover
        (⟨[⟨"1", "A", "B", []⟩, ⟨"1", "C", "D", []⟩], "", "", ""⟩ : AppState)).vasos,
      v.id ≠ "1") ∧
    (∀ v ∈ (⟨[⟨"1", "A", "B", []⟩, ⟨"1", "C", "D", []⟩], "", "", ""⟩ : AppState).vasos,
      v.id ≠ "1" → v ∈ (removerVaso "1" RemoveChoice.simRemover
        (⟨[⟨"1", "A", "B", []⟩, ⟨"1", "C", "D", []⟩], "", "", ""⟩ : AppState)).vasos) ∧
    ((removerVaso "1" RemoveChoice.simRemover
        (⟨[⟨"1", "A", "B", []⟩, ⟨"1", "C", "D", []⟩], "", "", ""⟩ : AppState)).vasos.length
      = (⟨[⟨"1", "A", "B", []⟩, ⟨"1", "C", "D", []⟩], "", "", ""⟩ : AppState).vasos.length
        - (⟨[⟨"1", "A", "B", []⟩, ⟨"1", "C", "D", []⟩], "", "", ""⟩ :
            AppState).vasos.countP (fun v => v.id == "1")) :=
  C10_remove_all (⟨[⟨"1", "A", "B", []⟩, ⟨"1", "C", "D", []⟩], "", "", ""⟩ : AppState) "1"

end CatalogoVasos
